import Mathlib

/-!
Verification development for the PR reviewer bot.

Shallow embedding of the parts of the code base that the verified
properties are about:

* `packages/core/src/models/CodeIssue.ts` — the issue data model;
* `packages/output/src/base/BaseOutputHandler.ts` — severity sorting;
* `packages/output/src/handlers/GitHubPROutputHandler.ts` — review-comment
  formatting and the diff-position stub;
* `packages/ai-connectors/src/base/BaseAIConnector.ts` and
  `packages/ai-connectors/src/base/BaseConnector.ts` — the two retry wrappers;
* `packages/ai-connectors/src/connectors/ClaudeConnector.ts`,
  `OllamaConnector.ts` (also holding `OpenAIConnector`) — connector error
  handling;
* `packages/agents/src/AIAgent.ts` (`SecurityAgent`),
  `packages/agents/src/BugDetectionAgent.ts`, `OptimizationAgent.ts` — the
  AI-response parsing functions, including an executable model of the
  JSON extraction regexes and of `JSON.parse`;
* the CLI `review` command — the sequential agent loop and its top-level
  catch that exits the process.

Asynchronous calls are modelled by explicit outcome traces
(`Nat → Except ErrInfo α` gives the outcome of the n-th invocation of a
wrapped function), and thrown exceptions by `Except`/`Option` results.
-/

namespace PRReview

/-- Severity of a code issue (`IssueSeverity` enum in `CodeIssue.ts`;
string values `info`, `warning`, `error`, `critical`). -/
inductive IssueSeverity where
  | info
  | warning
  | error
  | critical
deriving DecidableEq, Repr

/-- Type of a code issue (`IssueType` enum in `CodeIssue.ts`;
string values `security`, `style`, `bug`, `optimization`, `other`). -/
inductive IssueType where
  | security
  | style
  | bug
  | optimization
  | other
deriving DecidableEq, Repr

/-- Location of an issue (`IssueLocation` in `CodeIssue.ts`).  Line and
column numbers are optional TS numbers, modelled as `Option Int`. -/
structure IssueLocation where
  filePath : String
  startLine : Option Int
  endLine : Option Int
  startColumn : Option Int
  endColumn : Option Int
deriving DecidableEq, Repr

/-- A finding (`CodeIssue` in `CodeIssue.ts`).  The optional free-form
`metadata` record is omitted: no operation modelled here reads it. -/
structure CodeIssue where
  id : String
  title : String
  description : String
  severity : IssueSeverity
  type : IssueType
  location : IssueLocation
  suggestedFix : Option String
  agent : String
deriving DecidableEq, Repr

/-- The `severityOrder` rank map of `BaseOutputHandler.sortIssuesBySeverity`. -/
def severityOrder : IssueSeverity → Nat
  | .critical => 0
  | .error => 1
  | .warning => 2
  | .info => 3

/-- Stable insertion of an issue after all already-placed issues of lower or
equal severity rank.  Folding `insertBySeverity` over the input from the left
is a stable sort by `severityOrder`, which models
`[...issues].sort((a, b) => severityOrder[a.severity] - severityOrder[b.severity])`:
ECMAScript `Array.prototype.sort` is required to be stable, and the comparator
consults only the severity rank. -/
def insertBySeverity (x : CodeIssue) : List CodeIssue → List CodeIssue
  | [] => [x]
  | y :: ys =>
    if severityOrder y.severity ≤ severityOrder x.severity then
      y :: insertBySeverity x ys
    else
      x :: y :: ys

/-- `BaseOutputHandler.sortIssuesBySeverity`: stable sort of the issue list by
severity rank (critical first, info last).  No other key is consulted. -/
def sortIssuesBySeverity (issues : List CodeIssue) : List CodeIssue :=
  issues.foldl (fun acc x => insertBySeverity x acc) []

/-- `BaseOutputHandler.getSeverityEmoji`. -/
def getSeverityEmoji : IssueSeverity → String
  | .critical => "🔴"
  | .error => "🟠"
  | .warning => "🟡"
  | .info => "🔵"

/-- `BaseOutputHandler.getTypeEmoji`. -/
def getTypeEmoji : IssueType → String
  | .security => "🔒"
  | .bug => "🐛"
  | .optimization => "⚡"
  | .style => "💅"
  | .other => "📝"

/-- JavaScript truthiness of an optional numeric line value
(`undefined` and `0` are falsy). -/
def truthyLine : Option Int → Bool
  | some n => n != 0
  | none => false

/-- `GitHubPROutputHandler.formatIssueComment`: the Markdown body of one
review comment.  The `if (issue.suggestedFix)` truthiness test skips both
`undefined` and the empty string. -/
def formatIssueComment (issue : CodeIssue) : String :=
  "### " ++ getSeverityEmoji issue.severity ++ " " ++ getTypeEmoji issue.type
    ++ " " ++ issue.title ++ "\n\n"
  ++ issue.description ++ "\n\n"
  ++ (match issue.suggestedFix with
      | some fix =>
        if fix != "" then "**Suggested Fix**:\n```\n" ++ fix ++ "\n```\n\n" else ""
      | none => "")
  ++ "*Detected by: " ++ issue.agent ++ "*"

/-- `GitHubPROutputHandler.findPositionInDiff`.  The source body is, verbatim
apart from formatting: "This is a simplified implementation … For now, we'll
just return a placeholder: `return 1;`" — it ignores all three arguments and
never returns `null`, although its own doc comment promises
"Position in diff or null if not found". -/
def findPositionInDiff (diff : String) (filePath : String) (line : Int) : Option Int :=
  some 1

/-- One GitHub review comment object as pushed by
`GitHubPROutputHandler.formatReviewComments`. -/
structure ReviewComment where
  path : String
  line : Int
  side : String
  body : String
deriving DecidableEq, Repr

/-- `GitHubPROutputHandler.formatReviewComments`: one comment is pushed per
issue whose `location.startLine` is truthy and whose diff position is found
(the position is computed and null-checked but the pushed object carries the
absolute `line`, not the position).  No merging, de-duplication or reordering
of issues happens anywhere in this pipeline. -/
def formatReviewComments (diff : String) : List CodeIssue → List ReviewComment
  | [] => []
  | issue :: rest =>
    if truthyLine issue.location.startLine then
      match findPositionInDiff diff issue.location.filePath
          (issue.location.startLine.getD 0) with
      | none => formatReviewComments diff rest
      | some _ =>
        { path := issue.location.filePath
          line := issue.location.startLine.getD 0
          side := "RIGHT"
          body := formatIssueComment issue } :: formatReviewComments diff rest
    else
      formatReviewComments diff rest

/-! ### Spec-side diff model

The repository contains no real unified-diff parser (`findPositionInDiff`
is the stub above), so the intended behaviour is reproduced here from the
specification text, to be compared against the stub. -/

/-- Modelled from the spec: the role of one physical diff line
(`DiffLine.role`, section 3 of the spec). -/
inductive DiffRole where
  | context
  | added
  | removed
  | hunkHeader
deriving DecidableEq, BEq, Repr

/-- Modelled from the spec: one physical line of a unified diff
(`DiffLine`, section 3 of the spec). -/
structure DiffLine where
  role : DiffRole
  oldLineNumber : Option Nat
  newLineNumber : Option Nat
  diffPosition : Nat
deriving DecidableEq, Repr

/-- Whether `p` is an initial segment of `s`. -/
def listStartsWith : List Char → List Char → Bool
  | [], _ => true
  | _ :: _, [] => false
  | p :: ps, c :: cs => p == c && listStartsWith ps cs

/-- Numeric value of a nonempty list of decimal digits. -/
def digitsToNat (ds : List Char) : Option Nat :=
  match ds with
  | [] => none
  | _ :: _ => some (ds.foldl (fun a c => a * 10 + (c.toNat - 48)) 0)

/-- Modelled from the spec: parsing a hunk header of the form
`@@ -oldStart,oldLines +newStart,newLines @@` (the `,lines` parts may be
absent), returning `(oldStart, newStart)`; `none` on a malformed header. -/
def parseHunkHeader (s : String) : Option (Nat × Nat) :=
  match s.data with
  | '@' :: '@' :: ' ' :: '-' :: rest =>
    let old := rest.span Char.isDigit
    let afterOld :=
      match old.2 with
      | ',' :: r => (r.span Char.isDigit).2
      | other => other
    match afterOld with
    | ' ' :: '+' :: r =>
      match digitsToNat old.1, digitsToNat (r.span Char.isDigit).1 with
      | some o, some n => some (o, n)
      | _, _ => none
    | _ => none
  | _ => none

/-- Modelled from the spec: the `DiffParser` line walk (section 4.1).
`pos` is the 1-based diff position of the next physical line; `old`/`new`
are the running counters initialised by each hunk header.  A malformed hunk
header makes the whole file diff unplaceable (empty result, never raises). -/
def specParseDiffGo : List String → Nat → Nat → Nat → List DiffLine
  | [], _, _, _ => []
  | l :: ls, pos, old, new =>
    if listStartsWith ['@', '@'] l.data then
      match parseHunkHeader l with
      | some (os, ns) =>
        ⟨.hunkHeader, none, none, pos⟩ :: specParseDiffGo ls (pos + 1) os ns
      | none => []
    else if listStartsWith ['+'] l.data then
      ⟨.added, none, some new, pos⟩ :: specParseDiffGo ls (pos + 1) old (new + 1)
    else if listStartsWith ['-'] l.data then
      ⟨.removed, some old, none, pos⟩ :: specParseDiffGo ls (pos + 1) (old + 1) new
    else
      ⟨.context, some old, some new, pos⟩ ::
        specParseDiffGo ls (pos + 1) (old + 1) (new + 1)

/-- Modelled from the spec: `DiffParser.parse` over pre-split physical lines,
with `diffPosition` starting at 1 and counting every line including hunk
headers. -/
def specParseDiff (lines : List String) : List DiffLine :=
  specParseDiffGo lines 1 0 0

/-- Modelled from the spec: `PositionResolver.resolve` (section 4.2) — first
match an `added`/`context` line on the new-file number, then fall back to a
`removed`/`context` line on the old-file number, else not found. -/
def specResolvePosition (fd : List DiffLine) (newLine oldLine : Option Nat) :
    Option Nat :=
  let byNew :=
    match newLine with
    | some nl =>
      fd.find? fun (d : DiffLine) =>
        (d.role == DiffRole.added || d.role == DiffRole.context)
          && d.newLineNumber == some nl
    | none => none
  match byNew with
  | some d => some d.diffPosition
  | none =>
    match oldLine with
    | some ol =>
      (fd.find? fun (d : DiffLine) =>
        (d.role == DiffRole.removed || d.role == DiffRole.context)
          && d.oldLineNumber == some ol).map
        (fun (d : DiffLine) => d.diffPosition)
    | none => none

/-- The spec's worked single-hunk example diff (section 8), as physical lines. -/
def exampleDiffLines : List String :=
  ["@@ -1,3 +1,4 @@", " line1", "-line2", "+line2-changed", "+line2b", " line3"]

/-- The same example diff as one text blob. -/
def exampleDiffText : String :=
  String.intercalate "\n" exampleDiffLines

/-! ### Retry wrappers and connectors -/

/-- The observable shape of a thrown error as far as the retry and connector
code inspects it: whether `axios.isAxiosError(error)` holds, the
`error.response?.status` (with `none` when no response is attached), the
`error.message`, and the `error.response.data.error?.message` payload used
when connectors rebuild messages. -/
structure ErrInfo where
  isAxiosError : Bool
  status : Option Nat
  message : String
  dataErrorMsg : Option String
deriving DecidableEq, Repr

/-- The rate-limit test of `BaseAIConnector.withRetry`:
`axios.isAxiosError(error) && error.response?.status === 429`. -/
def isRateLimit429 (e : ErrInfo) : Bool :=
  e.isAxiosError && e.status == some 429

/-- The `new Error('Unknown error occurred during retry')` fallback thrown
after the loop of `BaseAIConnector.withRetry` (reachable only when
`maxRetries` is 0). -/
def unknownRetryError : ErrInfo :=
  { isAxiosError := false, status := none
    message := "Unknown error occurred during retry", dataErrorMsg := none }

/-- Result of running a retry wrapper against an outcome trace: the final
result, the sequence of delays slept (in order), and the number of times the
wrapped function was invoked. -/
structure RetryResult (α : Type) where
  result : Except ErrInfo α
  delays : List Nat
  calls : Nat
deriving Repr

/-- The attempt loop of `BaseAIConnector.withRetry`
(`packages/ai-connectors/src/base/BaseAIConnector.ts`, the variant used by
the connectors).  `f n` is the outcome of the wrapped function's `n`-th
invocation; `remaining` counts the loop iterations still allowed
(`maxRetries - attempt`).  A 429 axios failure sleeps
`retryDelay * (attempt + 1)` and always continues; any other failure sleeps
the constant `retryDelay` but only while `attempt < maxRetries - 1`,
otherwise the error is rethrown unchanged. -/
def retryLoopAI {α : Type} (f : Nat → Except ErrInfo α) (maxRetries retryDelay : Nat) :
    Nat → Nat → Option ErrInfo → RetryResult α
  | _, 0, lastError => ⟨.error (lastError.getD unknownRetryError), [], 0⟩
  | attempt, remaining + 1, _ =>
    match f attempt with
    | .ok v => ⟨.ok v, [], 1⟩
    | .error e =>
      if isRateLimit429 e then
        let r := retryLoopAI f maxRetries retryDelay (attempt + 1) remaining (some e)
        ⟨r.result, retryDelay * (attempt + 1) :: r.delays, r.calls + 1⟩
      else if attempt < maxRetries - 1 then
        let r := retryLoopAI f maxRetries retryDelay (attempt + 1) remaining (some e)
        ⟨r.result, retryDelay :: r.delays, r.calls + 1⟩
      else
        ⟨.error e, [], 1⟩

/-- `BaseAIConnector.withRetry` (loop variant): run the loop from attempt 0.
The instance defaults are `maxRetries = 3`, `retryDelay = 1000` ms. -/
def withRetryAI {α : Type} (f : Nat → Except ErrInfo α) (maxRetries retryDelay : Nat) :
    RetryResult α :=
  retryLoopAI f maxRetries retryDelay 0 maxRetries none

/-- `BaseAIConnector.withRetry` of
`packages/ai-connectors/src/base/BaseConnector.ts` (the recursive variant):
on any failure, if `retries <= 0` rethrow, otherwise sleep `delay` and recurse
with `retries - 1` and `delay * 2`.  `call` numbers the invocations of the
wrapped function. -/
def withRetryBC {α : Type} (f : Nat → Except ErrInfo α) (retries delay call : Nat) :
    RetryResult α :=
  match f call with
  | .ok v => ⟨.ok v, [], 1⟩
  | .error e =>
    match retries with
    | 0 => ⟨.error e, [], 1⟩
    | r + 1 =>
      let res := withRetryBC f r (delay * 2) (call + 1)
      ⟨res.result, delay :: res.delays, res.calls + 1⟩

/-- The `catch` block inside `ClaudeConnector.generateResponse`: an axios
error carrying a response is replaced by a plain `Error` built from the
status and the payload message (one message for 429, another otherwise);
anything else is rethrown unchanged. -/
def claudeCatch (e : ErrInfo) : ErrInfo :=
  if e.isAxiosError then
    match e.status with
    | some status =>
      let dmsg := e.dataErrorMsg.getD "Unknown error"
      if status == 429 then
        { isAxiosError := false, status := none
          message := "Claude API rate limit exceeded: " ++ dmsg, dataErrorMsg := none }
      else
        { isAxiosError := false, status := none
          message := "Claude API error (" ++ toString status ++ "): " ++ dmsg
          dataErrorMsg := none }
    | none => e
  else e

/-- The `catch` block inside `OpenAIConnector.generateResponse` (same shape
as `claudeCatch`, with OpenAI message text). -/
def openAICatch (e : ErrInfo) : ErrInfo :=
  if e.isAxiosError then
    match e.status with
    | some status =>
      let dmsg := e.dataErrorMsg.getD "Unknown error"
      if status == 429 then
        { isAxiosError := false, status := none
          message := "OpenAI API rate limit exceeded: " ++ dmsg, dataErrorMsg := none }
      else
        { isAxiosError := false, status := none
          message := "OpenAI API error (" ++ toString status ++ "): " ++ dmsg
          dataErrorMsg := none }
    | none => e
  else e

/-- The function `ClaudeConnector.generateResponse` hands to `withRetry`: the
raw request outcome with the connector's own catch applied to failures. -/
def claudeWrap {α : Type} (f : Nat → Except ErrInfo α) (n : Nat) : Except ErrInfo α :=
  match f n with
  | .ok v => .ok v
  | .error e => .error (claudeCatch e)

/-- The function `OpenAIConnector.generateResponse` hands to `withRetry`. -/
def openAIWrap {α : Type} (f : Nat → Except ErrInfo α) (n : Nat) : Except ErrInfo α :=
  match f n with
  | .ok v => .ok v
  | .error e => .error (openAICatch e)

/-- `ClaudeConnector.generateResponse` as seen by the retry wrapper, over the
trace `f` of raw axios request outcomes. -/
def claudeGenerateResponse (f : Nat → Except ErrInfo String) (maxRetries retryDelay : Nat) :
    RetryResult String :=
  withRetryAI (claudeWrap f) maxRetries retryDelay

/-- `OpenAIConnector.generateResponse` as seen by the retry wrapper. -/
def openAIGenerateResponse (f : Nat → Except ErrInfo String) (maxRetries retryDelay : Nat) :
    RetryResult String :=
  withRetryAI (openAIWrap f) maxRetries retryDelay

/-- `OllamaConnector.generateResponse`: awaits `withRetry(() => makeRequest)`
inside a try/catch; on any failure it resolves (does not reject) with a
message built as
`` `Error: Failed to generate response from Ollama. ${error.message}` ``. -/
def ollamaGenerateResponse (f : Nat → Except ErrInfo String) (maxRetries retryDelay : Nat) :
    String :=
  match (withRetryAI f maxRetries retryDelay).result with
  | .ok response => response
  | .error e => "Error: Failed to generate response from Ollama. " ++ e.message

/-! ### The CLI review command's agent loop -/

/-- An agent's `analyze(file, content, repoDir)` call, folded over the file
content lookup: the outcome for a given file path either resolves with a
list of issues or rejects. -/
abbrev AnalyzeFn := String → Except ErrInfo (List CodeIssue)

/-- The inner file loop of the `review` command: issues of successive files
are appended to the accumulator; a rejected `analyze` aborts the loop. -/
def agentAnalyzeFiles (analyze : AnalyzeFn) : List String → Except ErrInfo (List CodeIssue)
  | [] => .ok []
  | file :: rest => do
    let issues ← analyze file
    let more ← agentAnalyzeFiles analyze rest
    .ok (issues ++ more)

/-- The outer agent loop of the `review` command accumulating `allIssues`. -/
def runAgents : List AnalyzeFn → List String → Except ErrInfo (List CodeIssue)
  | [], _ => .ok []
  | a :: rest, files => do
    let first ← agentAnalyzeFiles a files
    let others ← runAgents rest files
    .ok (first ++ others)

/-- Outcome of one run of the `review` command action. -/
inductive ReviewOutcome where
  | completed (issues : List CodeIssue)
  | exited (code : Nat)
deriving DecidableEq, Repr

/-- The `.action` body of the `review` command
(`packages/cli/src/commands/review.ts`): if the agent loop resolves, the
accumulated issues reach `outputHandler.handleOutput`; any error thrown out
of the loop reaches the outer catch, which logs and calls `process.exit(1)`. -/
def reviewAction (agents : List AnalyzeFn) (files : List String) : ReviewOutcome :=
  match runAgents agents files with
  | .ok allIssues => .completed allIssues
  | .error _ => .exited 1

/-! ### JavaScript values and `JSON.parse` for the AI-response parsers

The agents extract a JSON fragment from the model's reply with a regex and
feed it to `JSON.parse` inside a try/catch.  Both steps are modelled
executably.  JSON numbers are modelled by their integer part: the fractional
and exponent syntax is accepted and skipped, which is enough because no
verified property depends on non-integer values. -/

/-- A parsed JSON value. -/
inductive JValue where
  | jnull
  | jbool (b : Bool)
  | jnum (n : Int)
  | jstr (s : String)
  | jarr (elems : List JValue)
  | jobj (fields : List (String × JValue))

/-- The open-brace character. -/
def openBraceChar : Char := Char.ofNat 123

/-- The close-brace character. -/
def closeBraceChar : Char := Char.ofNat 125

/-- ASCII part of the JavaScript regex class `\s` (the Unicode space
characters it also covers do not occur in the modelled inputs). -/
def isJsWs (c : Char) : Bool :=
  c == ' ' || c == '\t' || c == '\n' || c == '\r' || c == '\x0b' || c == '\x0c'

/-- JSON insignificant whitespace. -/
def isJsonWs (c : Char) : Bool :=
  c == ' ' || c == '\t' || c == '\n' || c == '\r'

/-- Drop leading JSON whitespace. -/
def skipJsonWs : List Char → List Char
  | [] => []
  | c :: cs => if isJsonWs c then skipJsonWs cs else c :: cs

/-- Value of a hexadecimal digit. -/
def hexVal (c : Char) : Option Nat :=
  if '0' ≤ c && c ≤ '9' then some (c.toNat - 48)
  else if 'a' ≤ c && c ≤ 'f' then some (c.toNat - 87)
  else if 'A' ≤ c && c ≤ 'F' then some (c.toNat - 55)
  else none

/-- Parse the body of a JSON string after the opening quote, decoding escape
sequences, up to and including the closing quote.  Returns the decoded
content and the remaining input.  (Surrogate-pair recombination for `\u`
escapes is not modelled.) -/
def parseStrChars : List Char → Option (List Char × List Char)
  | [] => none
  | '"' :: rest => some ([], rest)
  | '\\' :: 'u' :: h1 :: h2 :: h3 :: h4 :: rest =>
    match hexVal h1, hexVal h2, hexVal h3, hexVal h4 with
    | some a, some b, some c, some d => do
      let (cs, r) ← parseStrChars rest
      some (Char.ofNat (((a * 16 + b) * 16 + c) * 16 + d) :: cs, r)
    | _, _, _, _ => none
  | '\\' :: e :: rest =>
    let decoded : Option Char :=
      if e == '"' then some '"'
      else if e == '\\' then some '\\'
      else if e == '/' then some '/'
      else if e == 'b' then some '\x08'
      else if e == 'f' then some '\x0c'
      else if e == 'n' then some '\n'
      else if e == 'r' then some '\r'
      else if e == 't' then some '\t'
      else none
    match decoded with
    | some c => do
      let (cs, r) ← parseStrChars rest
      some (c :: cs, r)
    | none => none
  | '\\' :: [] => none
  | c :: rest => do
    let (cs, r) ← parseStrChars rest
    some (c :: cs, r)

/-- Skip an optional fraction part `.digits`; fails on a bare dot. -/
def skipFracPart : List Char → Option (List Char)
  | '.' :: r =>
    match r.span Char.isDigit with
    | ([], _) => none
    | (_ :: _, rest) => some rest
  | cs => some cs

/-- Skip an optional exponent part `e[+-]digits`; fails on a bare marker. -/
def skipExpPart : List Char → Option (List Char)
  | [] => some []
  | c :: r =>
    if c == 'e' || c == 'E' then
      let r2 := match r with
        | s :: t => if s == '+' || s == '-' then t else s :: t
        | [] => []
      match r2.span Char.isDigit with
      | ([], _) => none
      | (_ :: _, rest) => some rest
    else some (c :: r)

/-- Parse a JSON number, returning its integer part and the remaining
input. -/
def parseNumber (cs : List Char) : Option (Int × List Char) :=
  let signed : Bool × List Char :=
    match cs with
    | '-' :: r => (true, r)
    | _ => (false, cs)
  match (signed.2.span Char.isDigit) with
  | ([], _) => none
  | (ds, rest) => do
    let rest1 ← skipFracPart rest
    let rest2 ← skipExpPart rest1
    let intPart : Nat := ds.foldl (fun a c => a * 10 + (c.toNat - 48)) 0
    some (if signed.1 then -(intPart : Int) else (intPart : Int), rest2)

mutual

/-- Recursive-descent JSON value parser with explicit fuel. -/
def parseJ : Nat → List Char → Option (JValue × List Char)
  | 0, _ => none
  | fuel + 1, input =>
    match skipJsonWs input with
    | [] => none
    | c :: rest =>
      if c == 'n' then
        if listStartsWith ['u', 'l', 'l'] rest then some (.jnull, rest.drop 3) else none
      else if c == 't' then
        if listStartsWith ['r', 'u', 'e'] rest then some (.jbool true, rest.drop 3)
        else none
      else if c == 'f' then
        if listStartsWith ['a', 'l', 's', 'e'] rest then some (.jbool false, rest.drop 4)
        else none
      else if c == '"' then
        (parseStrChars rest).map fun p => (.jstr (String.mk p.1), p.2)
      else if c == '[' then
        parseArrElems fuel rest
      else if c == openBraceChar then
        parseObjFields fuel rest
      else if c == '-' || c.isDigit then
        (parseNumber (c :: rest)).map fun p => (.jnum p.1, p.2)
      else none

/-- Array elements after the opening bracket. -/
def parseArrElems : Nat → List Char → Option (JValue × List Char)
  | 0, _ => none
  | fuel + 1, input =>
    match skipJsonWs input with
    | ']' :: rest => some (.jarr [], rest)
    | other => parseArrLoop fuel other []

/-- Comma-separated array elements. -/
def parseArrLoop : Nat → List Char → List JValue → Option (JValue × List Char)
  | 0, _, _ => none
  | fuel + 1, input, acc => do
    let (v, rest) ← parseJ fuel input
    match skipJsonWs rest with
    | ',' :: r => parseArrLoop fuel r (acc ++ [v])
    | ']' :: r => some (.jarr (acc ++ [v]), r)
    | _ => none

/-- Object fields after the opening brace. -/
def parseObjFields : Nat → List Char → Option (JValue × List Char)
  | 0, _ => none
  | fuel + 1, input =>
    match skipJsonWs input with
    | [] => none
    | c :: rest =>
      if c == closeBraceChar then some (.jobj [], rest)
      else parseObjLoop fuel (c :: rest) []

/-- Comma-separated `"key": value` object members. -/
def parseObjLoop : Nat → List Char → List (String × JValue) → Option (JValue × List Char)
  | 0, _, _ => none
  | fuel + 1, input, acc =>
    match skipJsonWs input with
    | '"' :: r => do
      let (key, rest1) ← parseStrChars r
      match skipJsonWs rest1 with
      | ':' :: rest2 => do
        let (v, rest3) ← parseJ fuel rest2
        let acc1 := acc ++ [(String.mk key, v)]
        match skipJsonWs rest3 with
        | ',' :: r2 => parseObjLoop fuel r2 acc1
        | d :: r2 => if d == closeBraceChar then some (.jobj acc1, r2) else none
        | [] => none
      | _ => none
    | _ => none

end

/-- `JSON.parse`: parse a complete JSON document; trailing non-whitespace is
an error.  The fuel bound exceeds the number of parser steps possible for
the input length. -/
def jsonParse (s : String) : Option JValue :=
  match parseJ (2 * s.data.length + 4) s.data with
  | some (v, rest) => if (skipJsonWs rest).isEmpty then some v else none
  | none => none

/-! ### The JSON-extraction regexes -/

/-- Find, scanning a reversed tail, the least reversed index of a `]` that is
preceded (in original order: followed by looking left) only by whitespace
down to a `}` — the backtracking step of `/.*\}\s*\]/`. -/
def revFindCloseBracket : List Char → Nat → Option Nat
  | [], _ => none
  | c :: rest, i =>
    if c == ']' then
      match rest.dropWhile isJsWs with
      | b :: _ => if b == closeBraceChar then some i else revFindCloseBracket rest (i + 1)
      | [] => revFindCloseBracket rest (i + 1)
    else revFindCloseBracket rest (i + 1)

/-- Try to match the regex of `parseResponse`, `/\[\s*\{.*\}\s*\]/s`, at the
start of `suffix`; on success return the matched text.  The leading
`\[\s*\{` is deterministic; the greedy `.*\}\s*\]` ends at the last
position where `}` + whitespace + `]` completes. -/
def tryMatchBracket (suffix : List Char) : Option (List Char) :=
  match suffix with
  | '[' :: rest =>
    let ws := rest.takeWhile isJsWs
    match rest.drop ws.length with
    | c :: t =>
      if c == openBraceChar then
        match revFindCloseBracket t.reverse 0 with
        | some i => some ('[' :: (ws ++ c :: t.take (t.length - i)))
        | none => none
      else none
    | [] => none
  | _ => none

/-- Leftmost match of `/\[\s*\{.*\}\s*\]/s` over the whole input. -/
def bracketMatchGo : List Char → Option (List Char)
  | [] => none
  | c :: rest =>
    match tryMatchBracket (c :: rest) with
    | some m => some m
    | none => bracketMatchGo rest

/-- `response.match(/\[\s*\{.*\}\s*\]/s)` of the Bug/Security/AI agents'
`parseResponse`, as the matched text (or `none`). -/
def bracketMatch (s : String) : Option String :=
  (bracketMatchGo s.data).map String.mk

/-- Least reversed index of a given character in a reversed tail — the
backtracking step of a trailing greedy match. -/
def revFindChar (target : Char) : List Char → Nat → Option Nat
  | [], _ => none
  | c :: rest, i => if c == target then some i else revFindChar target rest (i + 1)

/-- Try to match `/\{[\s\S]*\}/` at the start of `suffix`: an open brace with
any later close brace, greedily extended to the last close brace. -/
def tryMatchBrace (suffix : List Char) : Option (List Char) :=
  match suffix with
  | c :: t =>
    if c == openBraceChar then
      match revFindChar closeBraceChar t.reverse 0 with
      | some i => some (c :: t.take (t.length - i))
      | none => none
    else none
  | [] => none

/-- Leftmost match of `/\{[\s\S]*\}/` over the whole input. -/
def braceMatchGo : List Char → Option (List Char)
  | [] => none
  | c :: rest =>
    match tryMatchBrace (c :: rest) with
    | some m => some m
    | none => braceMatchGo rest

/-- `response.match(/\{[\s\S]*\}/)` of `OptimizationAgent.parseAIResponse`,
as the matched text (or `none`). -/
def braceMatch (s : String) : Option String :=
  (braceMatchGo s.data).map String.mk

/-! ### JavaScript object semantics used by the parse callbacks -/

/-- Property access `value.name` on a parsed JSON value: a field of an
object (duplicate keys: the last one wins, as in `JSON.parse`), `none`
(that is, `undefined`) on every non-object, mirroring property access on
primitives and arrays. -/
def getField : JValue → String → Option JValue
  | .jobj fields, name =>
    fields.foldl (fun acc kv => if kv.1 == name then some kv.2 else acc) none
  | _, _ => none

/-- JavaScript stringification of a value, as used by template literals.
Array stringification is abbreviated to a constant: no verified property
depends on it. -/
def jsValToString : JValue → String
  | .jnull => "null"
  | .jbool b => cond b "true" "false"
  | .jnum n => toString n
  | .jstr s => s
  | .jarr _ => "[array]"
  | .jobj _ => "[object Object]"

/-- Stringification of a possibly-undefined value. -/
def jsToString : Option JValue → String
  | none => "undefined"
  | some v => jsValToString v

/-- JavaScript truthiness of a parsed JSON value. -/
def jsTruthy : JValue → Bool
  | .jnull => false
  | .jbool b => b
  | .jnum n => n != 0
  | .jstr s => s != ""
  | .jarr _ => true
  | .jobj _ => true

/-- ASCII lowering of one character. -/
def asciiLowerChar (c : Char) : Char :=
  if 'A' ≤ c && c ≤ 'Z' then Char.ofNat (c.toNat + 32) else c

/-- `String.prototype.toLowerCase` restricted to ASCII — enough for the
severity keywords compared against. -/
def asciiLower (s : String) : String :=
  String.mk (s.data.map asciiLowerChar)

/-! ### `BaseAgent.createIssue` and the agents' response parsing -/

/-- `path.basename`: the final path component. -/
def pathBasename (p : String) : String :=
  String.mk (p.data.foldl (fun acc c => if c == '/' then [] else acc ++ [c]) [])

/-- The string value of an `IssueType` enum member. -/
def issueTypeStr : IssueType → String
  | .security => "security"
  | .style => "style"
  | .bug => "bug"
  | .optimization => "optimization"
  | .other => "other"

/-- `BaseAgent.generateIssueId`.  The trailing `Date.now().toString(36)`
timestamp is rendered as the abstract token `timestamp`: no verified
property reads `id`. -/
def generateIssueId (agentName : String) (type : String) (filePath : String)
    (line : Option Int) : String :=
  let lineStr :=
    match line with
    | some n => if n != 0 then "-L" ++ toString n else ""
    | none => ""
  agentName ++ "-" ++ type ++ "-" ++ pathBasename filePath ++ lineStr ++ "-timestamp"

/-- `BaseAgent.createIssue`. -/
def createIssue (agentName : String) (title description : String) (type : IssueType)
    (severity : IssueSeverity) (filePath : String) (startLine endLine : Option Int)
    (suggestedFix : Option String) : CodeIssue :=
  { id := generateIssueId agentName (issueTypeStr type) filePath startLine
    title := title
    description := description
    severity := severity
    type := type
    location :=
      { filePath := filePath, startLine := startLine, endLine := endLine
        startColumn := none, endColumn := none }
    suggestedFix := suggestedFix
    agent := agentName }

/-- The severity `switch` of the parse callbacks, with the per-agent default
branch. -/
def sevSwitch (s : String) (dflt : IssueSeverity) : IssueSeverity :=
  if s == "info" then .info
  else if s == "warning" then .warning
  else if s == "error" then .error
  else if s == "critical" then .critical
  else dflt

/-- A numeric field passed on to `createIssue(startLine?: number)`.
Non-numeric JSON values in these fields are not modelled (collapsed to
`none`); no verified property exercises them. -/
def jsNumField (issue : JValue) (name : String) : Option Int :=
  match getField issue name with
  | some (.jnum n) => some n
  | _ => none

/-- The `suggestedFix` argument: stored raw by `createIssue` and consumed
only through the truthiness test of `formatIssueComment`, so falsy values
collapse to `none`. -/
def jsFixField (issue : JValue) (name : String) : Option String :=
  match getField issue name with
  | some v => if jsTruthy v then some (jsValToString v) else none
  | none => none

/-- The `issues.map` callback shared by `BugDetectionAgent.parseResponse`
and `SecurityAgent.parseResponse` (they differ only in the fixed issue type
and the default severity).  A `TypeError` — property access on `null`, or
`.toLowerCase()` on a non-string severity — aborts the whole map and is
modelled as `.error ()`. -/
def convertParsedIssue (agentName : String) (fixedType : IssueType)
    (defaultSev : IssueSeverity) (filePath : String) (issue : JValue) :
    Except Unit CodeIssue :=
  match issue with
  | .jnull => .error ()
  | _ =>
    let sevE : Except Unit IssueSeverity :=
      match getField issue "severity" with
      | none => .ok defaultSev
      | some .jnull => .ok defaultSev
      | some (.jstr s) => .ok (sevSwitch (asciiLower s) defaultSev)
      | some _ => .error ()
    match sevE with
    | .error _ => .error ()
    | .ok sev =>
      .ok (createIssue agentName
        (jsToString (getField issue "title"))
        (jsToString (getField issue "description"))
        fixedType sev filePath
        (jsNumField issue "lineStart") (jsNumField issue "lineEnd")
        (jsFixField issue "suggestedFix"))

/-- Common shape of `parseResponse` in `BugDetectionAgent` and
`SecurityAgent`: extract `/\[\s*\{.*\}\s*\]/s`, `JSON.parse` it, convert
each element; the enclosing try/catch turns every failure into `[]`. -/
def parseResponseWith (agentName : String) (fixedType : IssueType)
    (defaultSev : IssueSeverity) (response filePath : String) : List CodeIssue :=
  match bracketMatch response with
  | none => []
  | some jsonStr =>
    match jsonParse jsonStr with
    | none => []
    | some (.jarr issues) =>
      match issues.mapM (convertParsedIssue agentName fixedType defaultSev filePath) with
      | .ok converted => converted
      | .error _ => []
    | some _ => []

/-- `BugDetectionAgent.parseResponse` (agent name `BugDetection`, fixed type
`bug`, default severity `warning`). -/
def bugParseResponse (response filePath : String) : List CodeIssue :=
  parseResponseWith "BugDetection" IssueType.bug IssueSeverity.warning response filePath

/-- `SecurityAgent.parseResponse` (agent name `Security`, fixed type
`security`, default severity `error`). -/
def securityParseResponse (response filePath : String) : List CodeIssue :=
  parseResponseWith "Security" IssueType.security IssueSeverity.error response filePath

/-- The unchecked `issue.severity as IssueSeverity` cast of
`OptimizationAgent.parseAIResponse`: the cast performs no conversion, so
only values equal to the enum's lowercase strings denote enum members;
anything else (including the uppercase strings the prompt requests) is
collapsed to `.info` here, and no verified property depends on that case. -/
def optCastSeverity : Option JValue → IssueSeverity
  | some (.jstr "info") => .info
  | some (.jstr "warning") => .warning
  | some (.jstr "error") => .error
  | some (.jstr "critical") => .critical
  | _ => .info

/-- `issue.location?.startLine || 1` (and the same for `endLine`). -/
def optLineField (loc : Option JValue) (name : String) : Int :=
  match loc with
  | some l =>
    match getField l name with
    | some (.jnum n) => if n != 0 then n else 1
    | _ => 1
  | none => 1

/-- The `jsonResponse.issues.map` callback of
`OptimizationAgent.parseAIResponse`, building the issue object literal;
`issue.title` on a `null` element throws (aborting the map). -/
def optConvertIssue (filePath : String) (issue : JValue) : Except Unit CodeIssue :=
  match issue with
  | .jnull => .error ()
  | _ =>
    let loc := getField issue "location"
    .ok
      { id := "uuid"
        title := jsToString (getField issue "title")
        description := jsToString (getField issue "description")
        severity := optCastSeverity (getField issue "severity")
        type := IssueType.optimization
        location :=
          { filePath := filePath
            startLine := some (optLineField loc "startLine")
            endLine := some (optLineField loc "endLine")
            startColumn := none, endColumn := none }
        suggestedFix :=
          some (match getField issue "suggestedFix" with
                | some v => if jsTruthy v then jsValToString v else ""
                | none => "")
        agent := "optimization-agent" }

/-- `OptimizationAgent.parseAIResponse`: extract `/\{[\s\S]*\}/`,
`JSON.parse`, require a `issues` array, convert each element; the enclosing
try/catch turns every failure into `[]`. -/
def optimizationParseAIResponse (response filePath : String) : List CodeIssue :=
  match braceMatch response with
  | none => []
  | some jsonStr =>
    match jsonParse jsonStr with
    | none => []
    | some root =>
      match getField root "issues" with
      | some (.jarr issues) =>
        match issues.mapM (optConvertIssue filePath) with
        | .ok converted => converted
        | .error _ => []
      | _ => []

/-! ### Spec-side ordering predicate and concrete fixtures -/

/-- Lexicographic order on character lists by code point. -/
def charListLt : List Char → List Char → Bool
  | [], [] => false
  | [], _ :: _ => true
  | _ :: _, [] => false
  | a :: as, b :: bs =>
    if a.toNat < b.toNat then true
    else if b.toNat < a.toNat then false
    else charListLt as bs

/-- Lexicographic string comparison (JavaScript code-unit order restricted
to the code points occurring here). -/
def strLtB (a b : String) : Bool :=
  charListLt a.data b.data

/-- The start line used for ordering comparisons (0 when absent). -/
def lineKey (i : CodeIssue) : Int :=
  i.location.startLine.getD 0

/-- Modelled from the spec: the total sort key of section 4.4 — severity
rank, then file path (lexicographic), then start line ascending, then type
name — as a pairwise comparison. -/
def specIssueOrderedPairB (a b : CodeIssue) : Bool :=
  if severityOrder a.severity < severityOrder b.severity then true
  else if severityOrder b.severity < severityOrder a.severity then false
  else if strLtB a.location.filePath b.location.filePath then true
  else if strLtB b.location.filePath a.location.filePath then false
  else if lineKey a < lineKey b then true
  else if lineKey b < lineKey a then false
  else !strLtB (issueTypeStr b.type) (issueTypeStr a.type)

/-- Modelled from the spec: a list is ordered by the total key of section
4.4 when every adjacent pair is. -/
def specOrderedB : List CodeIssue → Bool
  | [] => true
  | [_] => true
  | a :: b :: rest => specIssueOrderedPairB a b && specOrderedB (b :: rest)

/-- The pairwise severity-rank order actually established by
`sortIssuesBySeverity`. -/
def sevLE (a b : CodeIssue) : Prop :=
  severityOrder a.severity ≤ severityOrder b.severity

/-- A `bug` issue on `a.ts` lines 10–12 reported by the bug agent. -/
def bugIssueA : CodeIssue :=
  { id := "bug-1", title := "Possible off-by-one", description := "first description"
    severity := .warning, type := .bug
    location :=
      { filePath := "a.ts", startLine := some 10, endLine := some 12
        startColumn := none, endColumn := none }
    suggestedFix := none, agent := "BugDetection" }

/-- A `bug` issue on `a.ts` lines 11–11 reported by a second analyzer; its
range overlaps `bugIssueA`. -/
def bugIssueB : CodeIssue :=
  { id := "bug-2", title := "Loop bound looks wrong", description := "second description"
    severity := .warning, type := .bug
    location :=
      { filePath := "a.ts", startLine := some 11, endLine := some 11
        startColumn := none, endColumn := none }
    suggestedFix := none, agent := "AI" }

/-- A warning on file `b.ts`. -/
def issueFileB : CodeIssue :=
  { id := "w-b", title := "On b", description := "warning on b.ts"
    severity := .warning, type := .style
    location :=
      { filePath := "b.ts", startLine := some 1, endLine := some 1
        startColumn := none, endColumn := none }
    suggestedFix := none, agent := "Style" }

/-- A warning on file `a.ts`, equal in severity to `issueFileB`. -/
def issueFileA : CodeIssue :=
  { id := "w-a", title := "On a", description := "warning on a.ts"
    severity := .warning, type := .style
    location :=
      { filePath := "a.ts", startLine := some 1, endLine := some 1
        startColumn := none, endColumn := none }
    suggestedFix := none, agent := "Style" }

/-- A non-axios failure, as the connectors rethrow them. -/
def genericBoom : ErrInfo :=
  { isAxiosError := false, status := none, message := "boom", dataErrorMsg := none }

/-- An axios HTTP 429 failure carrying a response. -/
def rateLimit429Err : ErrInfo :=
  { isAxiosError := true, status := some 429, message := "Request failed with status code 429"
    dataErrorMsg := none }

/-- Outcome trace failing generically twice and then succeeding. -/
def c4TraceFn : Nat → Except ErrInfo String :=
  fun n => if n < 2 then .error genericBoom else .ok "done"

/-- Whether an outcome is a failure that the loop variant of `withRetry`
does not classify as a rate limit. -/
def isGenericFailure {α : Type} : Except ErrInfo α → Bool
  | .error e => !isRateLimit429 e
  | .ok _ => false

/-- Outcome trace failing with `e1` then `e2` and succeeding from the third
invocation on. -/
def c5Trace (e1 e2 : ErrInfo) (v : String) : Nat → Except ErrInfo String :=
  fun n => if n = 0 then .error e1 else if n = 1 then .error e2 else .ok v

/-- The plain error a connector throws once its retries are exhausted. -/
def c7FailErr : ErrInfo :=
  { isAxiosError := false, status := none
    message := "Claude API error (500): Unknown error", dataErrorMsg := none }

/-- An agent whose `analyze` resolves everywhere except on `b.ts`, where the
AI call has failed after exhausting its retries. -/
def c7Agent : AnalyzeFn :=
  fun file => if file = "b.ts" then .error c7FailErr else .ok [bugIssueA]

/-! ### Helper lemmas -/

theorem mem_insertBySeverity {x z : CodeIssue} {l : List CodeIssue} :
    z ∈ insertBySeverity x l ↔ z = x ∨ z ∈ l := by
  induction l with
  | nil => simp [insertBySeverity]
  | cons y ys ih =>
    by_cases h : severityOrder y.severity ≤ severityOrder x.severity
    · simp only [insertBySeverity, if_pos h, List.mem_cons, ih]
      try tauto
    · simp only [insertBySeverity, if_neg h, List.mem_cons]
      try tauto

theorem pairwise_insertBySeverity {x : CodeIssue} {l : List CodeIssue}
    (h : l.Pairwise sevLE) : (insertBySeverity x l).Pairwise sevLE := by
  induction l with
  | nil => simp [insertBySeverity, sevLE]
  | cons y ys ih =>
    rcases List.pairwise_cons.mp h with ⟨hy, hys⟩
    by_cases hc : severityOrder y.severity ≤ severityOrder x.severity
    · simp only [insertBySeverity, if_pos hc]
      refine List.pairwise_cons.mpr ⟨?_, ih hys⟩
      intro z hz
      rcases mem_insertBySeverity.mp hz with rfl | hzys
      · exact hc
      · exact hy z hzys
    · simp only [insertBySeverity, if_neg hc]
      have hlt : severityOrder x.severity < severityOrder y.severity := Nat.not_le.mp hc
      refine List.pairwise_cons.mpr ⟨?_, h⟩
      intro z hz
      rcases List.mem_cons.mp hz with rfl | hz
      · exact Nat.le_of_lt hlt
      · exact Nat.le_trans (Nat.le_of_lt hlt) (hy z hz)

theorem filter_sev_eq_nil {s : IssueSeverity} {l : List CodeIssue}
    (h : ∀ z ∈ l, z.severity ≠ s) :
    l.filter (fun i => i.severity == s) = [] := by
  induction l with
  | nil => rfl
  | cons z zs ih =>
    have hz : (z.severity == s) = false := by
      simpa using h z (List.mem_cons_self z zs)
    simp only [List.filter_cons, hz, Bool.false_eq_true, if_neg]
    exact ih fun w hw => h w (List.mem_cons_of_mem z hw)

theorem filter_insertBySeverity {x : CodeIssue} {l : List CodeIssue}
    (hsort : l.Pairwise sevLE) (s : IssueSeverity) :
    (insertBySeverity x l).filter (fun i => i.severity == s) =
      l.filter (fun i => i.severity == s) ++ (if x.severity == s then [x] else []) := by
  induction l with
  | nil =>
    by_cases hx : (x.severity == s) = true <;>
      simp [insertBySeverity, List.filter_cons, hx]
  | cons y ys ih =>
    rcases List.pairwise_cons.mp hsort with ⟨hy, hys⟩
    by_cases hc : severityOrder y.severity ≤ severityOrder x.severity
    · by_cases hy' : (y.severity == s) = true <;>
        simp [insertBySeverity, if_pos hc, List.filter_cons, hy', ih hys]
    · simp only [insertBySeverity, if_neg hc]
      have hlt : severityOrder x.severity < severityOrder y.severity := Nat.not_le.mp hc
      have hall : ∀ z ∈ y :: ys, severityOrder x.severity < severityOrder z.severity := by
        intro z hz
        rcases List.mem_cons.mp hz with rfl | hz
        · exact hlt
        · exact Nat.lt_of_lt_of_le hlt (hy z hz)
      by_cases hx : (x.severity == s) = true
      · have hxs : x.severity = s := by simpa using hx
        have hnil : (y :: ys).filter (fun i => i.severity == s) = [] := by
          refine filter_sev_eq_nil ?_
          intro z hz hzs
          have := hall z hz
          rw [hzs, ← hxs] at this
          omega
        simp [List.filter_cons, hx, hnil]
      · have hx' : (x.severity == s) = false := by
          revert hx
          cases x.severity == s <;> simp
        simp [List.filter_cons, hx']

theorem pairwise_foldl_insert (l : List CodeIssue) :
    ∀ acc : List CodeIssue, acc.Pairwise sevLE →
      (List.foldl (fun acc x => insertBySeverity x acc) acc l).Pairwise sevLE := by
  induction l with
  | nil => intro acc h; exact h
  | cons x rest ih =>
    intro acc h
    exact ih (insertBySeverity x acc) (pairwise_insertBySeverity h)

theorem filter_foldl_insert (s : IssueSeverity) (l : List CodeIssue) :
    ∀ acc : List CodeIssue, acc.Pairwise sevLE →
      (List.foldl (fun acc x => insertBySeverity x acc) acc l).filter
          (fun i => i.severity == s) =
        acc.filter (fun i => i.severity == s) ++ l.filter (fun i => i.severity == s) := by
  induction l with
  | nil => intro acc _; simp
  | cons x rest ih =>
    intro acc h
    simp only [List.foldl_cons]
    rw [ih (insertBySeverity x acc) (pairwise_insertBySeverity h),
      filter_insertBySeverity h s, List.filter_cons]
    split <;> simp

/-! ### Claim theorems -/

/-- Claim C1 (code bug exhibit).  The diff-position semantics the claim
describes hold of the spec-side model: parsing the example single-hunk diff
assigns positions 1–6 with the stated roles and old/new numbers, and
resolving new-file line 3 yields position 5.  The repository's own
position computation, `GitHubPROutputHandler.findPositionInDiff`, is a
placeholder that returns 1 for every input — in particular it returns 1,
not 5, for new-file line 3 of this diff, contradicting both the claim and
its own doc comment. -/
theorem c1_example_diff_positions :
    specParseDiff exampleDiffLines =
      [⟨.hunkHeader, none, none, 1⟩,
       ⟨.context, some 1, some 1, 2⟩,
       ⟨.removed, some 2, none, 3⟩,
       ⟨.added, none, some 2, 4⟩,
       ⟨.added, none, some 3, 5⟩,
       ⟨.context, some 3, some 4, 6⟩]
    ∧ specResolvePosition (specParseDiff exampleDiffLines) (some 3) none = some 5
    ∧ findPositionInDiff exampleDiffText "file.ts" 3 = some 1 := by
  refine ⟨by decide, by decide, rfl⟩

/-- Claim C6 (code bug exhibit).  `findPositionInDiff` returns `some 1` for
every diff, file path and line — it never returns the not-found result
`none`, not even for a line number absent from the diff (999 in the example
diff), whereas the spec-side resolver does return `none` there. -/
theorem c6_stub_never_not_found :
    (∀ (d f : String) (l : Int), findPositionInDiff d f l = some 1)
    ∧ findPositionInDiff exampleDiffText "file.ts" 999 ≠ none
    ∧ specResolvePosition (specParseDiff exampleDiffLines) (some 999) (some 999) = none := by
  refine ⟨fun _ _ _ => rfl, by decide, by decide⟩

/-- Claim C2 counterexample.  Two `bug` issues on `a.ts` with overlapping
ranges `[10,12]` and `[11,11]` from two analyzers produce two separate
review comments — there is no merging into a single aggregated issue. -/
theorem c2_overlapping_issues_not_merged :
    (formatReviewComments exampleDiffText [bugIssueA, bugIssueB]).length = 2 := by
  decide

/-- Claim C2 amended: `formatReviewComments` performs no aggregation at all —
it emits exactly one comment per issue with a truthy `startLine`, in input
order, each attributed to its own single analyzer. -/
theorem c2_amended_one_comment_per_issue :
    ∀ (diff : String) (issues : List CodeIssue),
      formatReviewComments diff issues =
        (issues.filter fun i => truthyLine i.location.startLine).map fun i =>
          { path := i.location.filePath, line := i.location.startLine.getD 0
            side := "RIGHT", body := formatIssueComment i } := by
  intro diff issues
  induction issues with
  | nil => rfl
  | cons i rest ih =>
    by_cases h : truthyLine i.location.startLine
    · simp [formatReviewComments, findPositionInDiff, h, List.filter_cons, ih]
    · simp [formatReviewComments, h, List.filter_cons, ih]

/-- Claim C3 counterexample.  Two equal-severity issues arriving as
`[issueFileB, issueFileA]` (file paths `b.ts`, `a.ts`) are left in input
order by `sortIssuesBySeverity`, so the rendered order violates the claimed
secondary key (file path, lexicographic). -/
theorem c3_full_key_not_established :
    specOrderedB (sortIssuesBySeverity [issueFileB, issueFileA]) = false := by
  decide

/-- Claim C3 amended: `sortIssuesBySeverity` orders output by severity rank
only (critical, error, warning, info) and is stable — for each severity the
subsequence of issues of that severity equals the input's, so ties keep
input order and equal inputs give identical output; file path, start line
and type are not consulted. -/
theorem c3_amended_severity_stable_sort :
    ∀ issues : List CodeIssue,
      (sortIssuesBySeverity issues).Pairwise sevLE
      ∧ ∀ s : IssueSeverity,
          (sortIssuesBySeverity issues).filter (fun i => i.severity == s) =
            issues.filter (fun i => i.severity == s) := by
  intro issues
  constructor
  · exact pairwise_foldl_insert issues [] (by simp)
  · intro s
    have := filter_foldl_insert s issues [] (by simp)
    simpa [sortIssuesBySeverity] using this

theorem claudeCatch_not_rate_limit : ∀ e, isRateLimit429 (claudeCatch e) = false := by
  intro e
  rcases e with ⟨ax, st, msg, dm⟩
  cases ax
  · simp [claudeCatch, isRateLimit429]
  · cases st with
    | none => simp [claudeCatch, isRateLimit429]
    | some s =>
      by_cases h : (s == 429) = true <;> simp [claudeCatch, isRateLimit429, h]

theorem openAICatch_not_rate_limit : ∀ e, isRateLimit429 (openAICatch e) = false := by
  intro e
  rcases e with ⟨ax, st, msg, dm⟩
  cases ax
  · simp [openAICatch, isRateLimit429]
  · cases st with
    | none => simp [openAICatch, isRateLimit429]
    | some s =>
      by_cases h : (s == 429) = true <;> simp [openAICatch, isRateLimit429, h]

theorem retryLoopAI_delays_const {α : Type} (f : Nat → Except ErrInfo α) (mr rd : Nat)
    (hf : ∀ n e, f n = .error e → isRateLimit429 e = false) :
    ∀ (remaining attempt : Nat) (last : Option ErrInfo),
      ((retryLoopAI f mr rd attempt remaining last).delays).all (fun d => d == rd) = true := by
  intro remaining
  induction remaining with
  | zero => intro attempt last; simp [retryLoopAI]
  | succ k ih =>
    intro attempt last
    cases hfa : f attempt with
    | ok v => simp [retryLoopAI, hfa]
    | error e =>
      have hrl := hf attempt e hfa
      by_cases hc : attempt < mr - 1
      · simp [retryLoopAI, hfa, hrl, hc, ih]
      · simp [retryLoopAI, hfa, hrl, hc]

theorem retryLoopAI_generic_exhausts {α : Type} (f : Nat → Except ErrInfo α) (mr rd : Nat)
    (hf : ∀ n, isGenericFailure (f n) = true) :
    ∀ (remaining attempt : Nat) (last : Option ErrInfo),
      attempt + remaining = mr → 1 ≤ remaining →
      (retryLoopAI f mr rd attempt remaining last).delays = List.replicate (remaining - 1) rd
      ∧ (retryLoopAI f mr rd attempt remaining last).result = f (mr - 1) := by
  intro remaining
  induction remaining with
  | zero => intro attempt last hsum h1; exact absurd h1 (by omega)
  | succ k ih =>
    intro attempt last hsum hk1
    have hga := hf attempt
    cases hfa : f attempt with
    | ok v => rw [hfa] at hga; simp [isGenericFailure] at hga
    | error e =>
      rw [hfa] at hga
      have hrl : isRateLimit429 e = false := by
        simpa [isGenericFailure] using hga
      by_cases hc : attempt < mr - 1
      · obtain ⟨j, rfl⟩ : ∃ j, k = j + 1 := ⟨k - 1, by omega⟩
        have hrec := ih (attempt + 1) (some e) (by omega) (by omega)
        have hout : retryLoopAI f mr rd attempt (j + 1 + 1) last =
            ⟨(retryLoopAI f mr rd (attempt + 1) (j + 1) (some e)).result,
             rd :: (retryLoopAI f mr rd (attempt + 1) (j + 1) (some e)).delays,
             (retryLoopAI f mr rd (attempt + 1) (j + 1) (some e)).calls + 1⟩ := by
          conv_lhs => rw [retryLoopAI]
          simp [hfa, hrl, hc]
        rw [hout]
        exact ⟨by simp [hrec.1, List.replicate_succ], hrec.2⟩
      · have hc' : attempt = mr - 1 := by omega
        have hk0 : k = 0 := by omega
        subst hk0
        constructor
        · simp [retryLoopAI, hfa, hrl, hc]
        · have hred : (retryLoopAI f mr rd attempt (0 + 1) last).result = Except.error e := by
            simp [retryLoopAI, hfa, hrl, hc]
          rw [hred, ← hc', hfa]

theorem doubling_delay_map (d k : Nat) :
    (List.range k).map (fun j => d * 2 * 2 ^ j) = (List.range k).map (fun j => d * 2 ^ (j + 1)) := by
  induction k with
  | zero => rfl
  | succ n ih =>
    rw [List.range_succ, List.map_append, List.map_append, ih]
    simp [pow_succ]
    ring

theorem withRetryBC_exhausts {α : Type} (g : Nat → Except ErrInfo α)
    (hg : ∀ n, (g n).isOk = false) :
    ∀ (r d idx : Nat),
      (withRetryBC g r d idx).delays = (List.range r).map (fun k => d * 2 ^ k)
      ∧ (withRetryBC g r d idx).result = g (idx + r) := by
  intro r
  induction r with
  | zero =>
    intro d idx
    cases hgi : g idx with
    | ok v => have := hg idx; rw [hgi] at this; simp [Except.isOk, Except.toBool] at this
    | error e => simp [withRetryBC, hgi]
  | succ k ih =>
    intro d idx
    cases hgi : g idx with
    | ok v => have := hg idx; rw [hgi] at this; simp [Except.isOk, Except.toBool] at this
    | error e =>
      have hrec := ih (d * 2) (idx + 1)
      have hout : withRetryBC g (k + 1) d idx =
          ⟨(withRetryBC g k (d * 2) (idx + 1)).result,
           d :: (withRetryBC g k (d * 2) (idx + 1)).delays,
           (withRetryBC g k (d * 2) (idx + 1)).calls + 1⟩ := by
        conv_lhs => rw [withRetryBC]
        simp [hgi]
      rw [hout]
      constructor
      · show d :: (withRetryBC g k (d * 2) (idx + 1)).delays = _
        rw [hrec.1, doubling_delay_map, List.range_succ_eq_map, List.map_cons, List.map_map]
        simp [Function.comp]
      · show (withRetryBC g k (d * 2) (idx + 1)).result = _
        rw [hrec.2]
        congr 1
        omega

/-- Claim C4 counterexample: with `maxRetries = 3` and `retryDelay = 1000`,
two generic (non-rate-limit) failures are retried by
`BaseAIConnector.withRetry` after two constant 1000 ms delays — not the
claimed exponential `1000 * 2 ^ k` backoff, which would sleep 1000 then
2000. -/
theorem c4_constant_delay_counterexample :
    (withRetryAI c4TraceFn 3 1000).delays = [1000, 1000]
    ∧ [1000, 1000] ≠ [1000 * 2 ^ 0, 1000 * 2 ^ 1] := by
  exact ⟨by decide, by decide⟩

/-- Claim C4 amended: in the loop variant (`BaseAIConnector.ts`), failures
not classified as rate limits are retried after a constant delay of
`retryDelay`, the wrapped function runs `maxRetries` times, and the last
error is propagated unchanged; the recursive variant (`BaseConnector.ts`)
does back off exponentially with multiplier 2 — delays
`delay * 2 ^ k` for the k-th retry — runs the wrapped function
`retries + 1` times, and also propagates the last error unchanged. -/
theorem c4_amended_retry_behaviour :
    ∀ {α : Type} (f g : Nat → Except ErrInfo α) (mr rd r d idx : Nat),
      (∀ n, isGenericFailure (f n) = true) → 1 ≤ mr → (∀ n, (g n).isOk = false) →
      ((withRetryAI f mr rd).delays = List.replicate (mr - 1) rd
        ∧ (withRetryAI f mr rd).result = f (mr - 1))
      ∧ ((withRetryBC g r d idx).delays = (List.range r).map (fun k => d * 2 ^ k)
        ∧ (withRetryBC g r d idx).result = g (idx + r)) := by
  intro α f g mr rd r d idx hf hmr hg
  refine ⟨?_, withRetryBC_exhausts g hg r d idx⟩
  have := retryLoopAI_generic_exhausts f mr rd hf mr 0 none (by omega) hmr
  simpa [withRetryAI] using this

/-- Claim C4 amended, witness at `maxRetries = 3`, `retryDelay = 1000`. -/
theorem c4_amended_retry_behaviour_witness :
    ((withRetryAI (fun _ => (Except.error genericBoom : Except ErrInfo String)) 3 1000).delays
        = List.replicate 2 1000
      ∧ (withRetryAI (fun _ => (Except.error genericBoom : Except ErrInfo String)) 3 1000).result
        = Except.error genericBoom)
    ∧ ((withRetryBC (fun _ => (Except.error genericBoom : Except ErrInfo String)) 3 1000 0).delays
        = (List.range 3).map (fun k => 1000 * 2 ^ k)
      ∧ (withRetryBC (fun _ => (Except.error genericBoom : Except ErrInfo String)) 3 1000 0).result
        = Except.error genericBoom) :=
  c4_amended_retry_behaviour (fun _ => Except.error genericBoom)
    (fun _ => Except.error genericBoom) 3 1000 3 1000 0
    (fun _ => rfl) (by decide) (fun _ => rfl)

/-- Claim C5: with `maxRetries = 3`, a call that fails twice with a
rate-limit error and succeeds on the third attempt completes successfully;
the wrapper sleeps exactly twice, `retryDelay * 1` then `retryDelay * 2`
(the second strictly longer when the delay is positive), and the wrapped
function is invoked exactly 3 = maxAttempts times in sequence. -/
theorem c5_rate_limit_then_success :
    ∀ (rd : Nat) (e1 e2 : ErrInfo) (v : String),
      isRateLimit429 e1 = true → isRateLimit429 e2 = true → 0 < rd →
      (withRetryAI (c5Trace e1 e2 v) 3 rd).result = .ok v
      ∧ (withRetryAI (c5Trace e1 e2 v) 3 rd).delays = [rd * 1, rd * 2]
      ∧ rd * 1 < rd * 2
      ∧ (withRetryAI (c5Trace e1 e2 v) 3 rd).calls = 3 := by
  intro rd e1 e2 v h1 h2 hrd
  have hstep : withRetryAI (c5Trace e1 e2 v) 3 rd = ⟨.ok v, [rd * 1, rd * 2], 3⟩ := by
    simp [withRetryAI, retryLoopAI, c5Trace, h1, h2]
  refine ⟨by rw [hstep], by rw [hstep], by omega, by rw [hstep]⟩

/-- Claim C5 witness at `retryDelay = 1000` with concrete 429 errors. -/
theorem c5_rate_limit_then_success_witness :
    (withRetryAI (c5Trace rateLimit429Err rateLimit429Err "done") 3 1000).result = .ok "done"
    ∧ (withRetryAI (c5Trace rateLimit429Err rateLimit429Err "done") 3 1000).delays
        = [1000 * 1, 1000 * 2]
    ∧ 1000 * 1 < 1000 * 2
    ∧ (withRetryAI (c5Trace rateLimit429Err rateLimit429Err "done") 3 1000).calls = 3 :=
  c5_rate_limit_then_success 1000 rateLimit429Err rateLimit429Err "done"
    (by decide) (by decide) (by decide)

/-- Claim C7 counterexample: an agent whose `analyze` rejects on the second
of three files (the AI call having failed after exhausting retries) makes
the whole `review` action exit with code 1: the first file's issues are
discarded, the third file is never analyzed, and no output is produced —
rather than the failure being confined to that one file. -/
theorem c7_failed_analyze_aborts_run :
    reviewAction [c7Agent] ["a.ts", "b.ts", "c.ts"] = ReviewOutcome.exited 1 := by
  decide

/-- Claim C7 amended: any rejection out of an agent's `analyze` reaches the
top-level catch of the `review` command, which exits the process with code
1; remaining files and agents are not analyzed and no output is produced.
Only failures recovered inside an agent or connector (e.g. the Ollama
connector's resolve-with-message, or a malformed AI response) leave the run
alive. -/
theorem c7_amended_exit_on_failure :
    ∀ (a : AnalyzeFn) (rest : List AnalyzeFn) (file : String) (files : List String)
      (e : ErrInfo),
      a file = .error e →
      reviewAction (a :: rest) (file :: files) = ReviewOutcome.exited 1 := by
  intro a rest file files e h
  simp only [reviewAction, runAgents, agentAnalyzeFiles, h]
  rfl

/-- Claim C7 amended, witness: the concrete agent failing on `b.ts`. -/
theorem c7_amended_exit_on_failure_witness :
    reviewAction [c7Agent] ["b.ts"] = ReviewOutcome.exited 1 :=
  c7_amended_exit_on_failure c7Agent [] "b.ts" [] c7FailErr rfl

/-- Claim C8: the response parsers of the AI-backed agents total out to an
issue list and never propagate an error — when the response has no
extractable JSON fragment, or the extracted fragment fails `JSON.parse`, or
a conversion step inside the map callback throws, the result is `[]`. -/
theorem c8_parse_failures_yield_empty :
    ∀ (response filePath : String),
      (bracketMatch response = none →
        bugParseResponse response filePath = []
        ∧ securityParseResponse response filePath = [])
      ∧ (∀ js, bracketMatch response = some js → jsonParse js = none →
        bugParseResponse response filePath = []
        ∧ securityParseResponse response filePath = [])
      ∧ (∀ js issues, bracketMatch response = some js →
          jsonParse js = some (JValue.jarr issues) →
          issues.mapM
              (convertParsedIssue "BugDetection" IssueType.bug IssueSeverity.warning filePath)
            = .error () →
          bugParseResponse response filePath = [])
      ∧ (braceMatch response = none → optimizationParseAIResponse response filePath = [])
      ∧ (∀ js, braceMatch response = some js → jsonParse js = none →
          optimizationParseAIResponse response filePath = []) := by
  intro response filePath
  refine ⟨?_, ?_, ?_, ?_, ?_⟩
  · intro h
    exact ⟨by simp [bugParseResponse, parseResponseWith, h],
           by simp [securityParseResponse, parseResponseWith, h]⟩
  · intro js h1 h2
    exact ⟨by simp [bugParseResponse, parseResponseWith, h1, h2],
           by simp [securityParseResponse, parseResponseWith, h1, h2]⟩
  · intro js issues h1 h2 h3
    simp only [bugParseResponse, parseResponseWith, h1, h2]
    rw [h3]
  · intro h
    simp [optimizationParseAIResponse, h]
  · intro js h1 h2
    simp [optimizationParseAIResponse, h1, h2]

/-- Claim C8 witness: a reply with no JSON fragment yields `[]` from all
three parsers. -/
theorem c8_parse_failures_yield_empty_witness :
    bugParseResponse "LGTM, no issues found" "a.ts" = []
    ∧ securityParseResponse "LGTM, no issues found" "a.ts" = []
    ∧ optimizationParseAIResponse "LGTM, no issues found" "a.ts" = [] := by
  have h := c8_parse_failures_yield_empty "LGTM, no issues found" "a.ts"
  have hb : bracketMatch "LGTM, no issues found" = none := by decide
  have hbr : braceMatch "LGTM, no issues found" = none := by decide
  exact ⟨(h.1 hb).1, (h.1 hb).2, h.2.2.2.1 hbr⟩

/-- The parser model evaluates end to end: a well-formed reply produces one
converted bug issue. -/
theorem bugParseResponse_concrete_example :
    bugParseResponse
        "Sure! [ \x7b\"title\": \"T\", \"severity\": \"error\", \"lineStart\": 3\x7d ]"
        "src/a.ts"
      = [createIssue "BugDetection" "T" "undefined" IssueType.bug IssueSeverity.error
          "src/a.ts" (some 3) none none] := by
  decide

/-- Claim C9: the connectors' own catch blocks rebuild every axios error
carrying a response (429 included) into a plain error and rethrow the rest,
so no error reaching `BaseAIConnector.withRetry` from ClaudeConnector or
OpenAIConnector ever passes the rate-limit test — the 429 branch is
unreachable for them, and every delay slept on their behalf is the constant
generic `retryDelay`. -/
theorem c9_rate_limit_branch_unreachable :
    (∀ e, isRateLimit429 (claudeCatch e) = false)
    ∧ (∀ e, isRateLimit429 (openAICatch e) = false)
    ∧ (∀ (f : Nat → Except ErrInfo String) (mr rd : Nat),
        ((claudeGenerateResponse f mr rd).delays).all (fun d => d == rd) = true)
    ∧ (∀ (f : Nat → Except ErrInfo String) (mr rd : Nat),
        ((openAIGenerateResponse f mr rd).delays).all (fun d => d == rd) = true) := by
  refine ⟨claudeCatch_not_rate_limit, openAICatch_not_rate_limit, ?_, ?_⟩
  · intro f mr rd
    have hfw : ∀ n e, claudeWrap f n = .error e → isRateLimit429 e = false := by
      intro n e h
      cases hf : f n with
      | ok v => simp [claudeWrap, hf] at h
      | error e0 =>
        simp [claudeWrap, hf] at h
        rw [← h]
        exact claudeCatch_not_rate_limit e0
    simpa [claudeGenerateResponse, withRetryAI] using
      retryLoopAI_delays_const (claudeWrap f) mr rd hfw mr 0 none
  · intro f mr rd
    have hfw : ∀ n e, openAIWrap f n = .error e → isRateLimit429 e = false := by
      intro n e h
      cases hf : f n with
      | ok v => simp [openAIWrap, hf] at h
      | error e0 =>
        simp [openAIWrap, hf] at h
        rw [← h]
        exact openAICatch_not_rate_limit e0
    simpa [openAIGenerateResponse, withRetryAI] using
      retryLoopAI_delays_const (openAIWrap f) mr rd hfw mr 0 none

/-- Claim C10: `OllamaConnector.generateResponse` always resolves with a
string — the model's return type has no failure channel — and whenever the
retried request has failed, the string begins
`Error: Failed to generate response from Ollama. `. -/
theorem c10_ollama_never_rejects :
    ∀ (f : Nat → Except ErrInfo String) (mr rd : Nat),
      (∃ s, (withRetryAI f mr rd).result = .ok s ∧ ollamaGenerateResponse f mr rd = s)
      ∨ (∃ m, ollamaGenerateResponse f mr rd
          = "Error: Failed to generate response from Ollama. " ++ m) := by
  intro f mr rd
  cases h : (withRetryAI f mr rd).result with
  | ok s => exact Or.inl ⟨s, rfl, by simp [ollamaGenerateResponse, h]⟩
  | error e => exact Or.inr ⟨e.message, by simp [ollamaGenerateResponse, h]⟩

end PRReview
